import Mathlib

/-!
Shallow embedding of `UserDataInitializationService`
(`src/vs/workbench/services/userData/browser/userDataInit.ts`).

The service holds two pieces of mutable state: a memoized promise for the
user-data sync-store client (`_userDataSyncStoreClientPromise`) and the list
of already-initialized sync resources (`initialized`).  The three public
entry points delegate to a private dispatcher (`initialize` in the source,
`initializeKinds` here) which lazily creates the client, then for each
requested resource checks-and-marks the `initialized` list synchronously
before awaiting the remote read and the local apply, catching all
per-resource errors.

Two renderings of the dispatcher are given:
* a sequential functional one (`initializeKinds`) recording the effect trace
  of remote reads and applies, used for the functional and error-handling
  properties; and
* a small-step machine (`stepA` / `run`) in which the synchronous
  check-and-mark section of each per-resource task is one atomic step while
  the awaited fetch is a separate step, scheduled arbitrarily, used for the
  interleaving properties.  The machine permits strictly more interleavings
  than the single-threaded JS event loop, so safety properties proved over
  it cover the real behaviour.
-/

/-- `SyncResource` enum from `userDataSync.ts`: the five resource kinds. -/
inductive SyncResource where
  | settings
  | keybindings
  | snippets
  | globalState
  | extensions
deriving DecidableEq, Repr

/-- Result of `getCurrentAuthenticationSessionInfo`: access token and provider id. -/
structure AuthenticationSession where
  accessToken : String
  providerId : String
deriving DecidableEq, Repr

/-- The product-service entry under `CONFIGURATION_SYNC_STORE_KEY`: carries the store url. -/
structure UserDataSyncStore where
  url : String
deriving DecidableEq, Repr

/-- `UserDataSyncStoreClient`: constructed from the store url; `setAuthToken`
fills in the token/provider pair. -/
structure UserDataSyncStoreClient where
  url : String
  authToken : Option (String × String)
deriving DecidableEq, Repr

/-- The environment read by the service: the collaborators' answers.
`isWeb`, `environmentService.options`, `storageService.isNew`, the product
configuration, the authentication session (which may throw, hence `Except`),
and the outcomes of the remote `read` and of each initializer's
`initialize(userData)` call. -/
structure Env where
  isWeb : Bool
  enableSyncByDefault : Bool
  globalStorageIsNew : Bool
  workspaceStorageIsNew : Bool
  userDataSyncStore : Option UserDataSyncStore
  credentialsProvider : Bool
  authSession : Except String (Option AuthenticationSession)
  readResult : SyncResource → Except String String
  applyResult : SyncResource → String → Except String Unit

/-- The gating checks of `createUserDataSyncStoreClient`, in source order. -/
inductive GateCheck where
  | web
  | syncByDefault
  | globalStorage
  | workspaceStorage
  | store
  | credentials
  | auth
deriving DecidableEq, Repr

/-- The full gating chain in the order the source evaluates it. -/
def fullGateChain : List GateCheck :=
  [GateCheck.web, GateCheck.syncByDefault, GateCheck.globalStorage,
   GateCheck.workspaceStorage, GateCheck.store, GateCheck.credentials, GateCheck.auth]

/-- Body of the async IIFE inside `createUserDataSyncStoreClient` (lines 56-103):
the short-circuit gating chain.  Returns the list of checks that actually
executed together with the resulting client (`none` models returning
`undefined`).  The `try/catch` around `getCurrentAuthenticationSessionInfo`
is rendered by mapping the `Except.error` case to `none` (the source logs the
error and falls through to the `!authenticationSession` check). -/
def createClientBody (env : Env) : List GateCheck × Option UserDataSyncStoreClient :=
  let checks := [GateCheck.web]
  if !env.isWeb then (checks, none) else
  let checks := checks ++ [GateCheck.syncByDefault]
  if !env.enableSyncByDefault then (checks, none) else
  let checks := checks ++ [GateCheck.globalStorage]
  if !env.globalStorageIsNew then (checks, none) else
  let checks := checks ++ [GateCheck.workspaceStorage]
  if !env.workspaceStorageIsNew then (checks, none) else
  let checks := checks ++ [GateCheck.store]
  match env.userDataSyncStore with
  | none => (checks, none)
  | some store =>
    let checks := checks ++ [GateCheck.credentials]
    if !env.credentialsProvider then (checks, none) else
    let checks := checks ++ [GateCheck.auth]
    let authenticationSession : Option AuthenticationSession :=
      match env.authSession with
      | Except.error _ => none
      | Except.ok s => s
    match authenticationSession with
    | none => (checks, none)
    | some session =>
      (checks, some { url := store.url,
                      authToken := some (session.accessToken, session.providerId) })

/-- The two mutable fields of `UserDataInitializationService`:
`_userDataSyncStoreClientPromise` (the memo cell; `none` = promise not yet
created, `some r` = promise created with eventual result `r`) and
`initialized` (the list of already-processed resources, line 42). -/
structure ServiceState where
  userDataSyncStoreClientPromise : Option (Option UserDataSyncStoreClient)
  initialized : List SyncResource
deriving DecidableEq, Repr

/-- The state of a fresh service instance. -/
def initialState : ServiceState :=
  { userDataSyncStoreClientPromise := none, initialized := [] }

/-- `createUserDataSyncStoreClient` (lines 54-106): if the memo cell is unset,
run the gating body and store its result; otherwise return the stored result
untouched.  In the source the promise object is stored synchronously before
any suspension, so at every interleaving point the cell is either unset or
already holds the (eventual) result; this justifies the atomic rendering. -/
def createUserDataSyncStoreClient (env : Env) (s : ServiceState) :
    Option UserDataSyncStoreClient × ServiceState :=
  match s.userDataSyncStoreClientPromise with
  | some r => (r, s)
  | none =>
    let r := (createClientBody env).2
    (r, { s with userDataSyncStoreClientPromise := some r })

/-- The concrete initializer chosen for a resource kind. -/
inductive ResourceInitializer where
  | settingsInitializer
  | keybindingsInitializer
  | snippetsInitializer
  | globalStateInitializer
  | extensionsInitializer
deriving DecidableEq, Repr

/-- `createSyncResourceInitializer` (lines 145-157): exhaustive switch over the
resource kind; for `Extensions` it throws when no instantiation service was
supplied.  The instantiation service is abstracted to `Option Unit`. -/
def createSyncResourceInitializer (syncResource : SyncResource)
    (instantiationService : Option Unit) : Except String ResourceInitializer :=
  match syncResource with
  | SyncResource.settings => Except.ok ResourceInitializer.settingsInitializer
  | SyncResource.keybindings => Except.ok ResourceInitializer.keybindingsInitializer
  | SyncResource.snippets => Except.ok ResourceInitializer.snippetsInitializer
  | SyncResource.globalState => Except.ok ResourceInitializer.globalStateInitializer
  | SyncResource.extensions =>
    match instantiationService with
    | none => Except.error "Instantiation Service is required to initialize extension"
    | some _ => Except.ok ResourceInitializer.extensionsInitializer

/-- Observable remote/local effects of the dispatcher: a remote `read` call for
a kind, and a successful apply of the fetched payload for a kind. -/
inductive Event where
  | read (r : SyncResource)
  | applied (r : SyncResource)
deriving DecidableEq, Repr

/-- Body of the per-resource async callback inside the dispatcher
(lines 127-136, the part inside `try`): check membership in `initialized`;
if absent, push the kind, build the initializer (which may throw), perform
the remote read (recorded as an `Event.read`), and apply the payload
(recorded as `Event.applied` on success).  Errors surface in the first
component; state mutations made before the throw persist. -/
def initResourceBody (env : Env) (instantiationService : Option Unit)
    (syncResource : SyncResource) (s : ServiceState) :
    Except String Unit × ServiceState × List Event :=
  if s.initialized.contains syncResource then
    (Except.ok (), s, [])
  else
    let s1 := { s with initialized := s.initialized ++ [syncResource] }
    match createSyncResourceInitializer syncResource instantiationService with
    | Except.error e => (Except.error e, s1, [])
    | Except.ok _ =>
      match env.readResult syncResource with
      | Except.error e => (Except.error e, s1, [Event.read syncResource])
      | Except.ok userData =>
        match env.applyResult syncResource userData with
        | Except.error e => (Except.error e, s1, [Event.read syncResource])
        | Except.ok _ =>
          (Except.ok (), s1, [Event.read syncResource, Event.applied syncResource])

/-- The `catch` clause (lines 137-140): any error from the per-resource body
is logged and absorbed. -/
def tryAbsorb (x : Except String Unit × ServiceState × List Event) :
    Except String Unit × ServiceState × List Event :=
  match x with
  | (Except.error _, s, ev) => (Except.ok (), s, ev)
  | (Except.ok u, s, ev) => (Except.ok u, s, ev)

/-- The `Promise.all(syncResources.map(...))` fan-out (lines 126-141), rendered
sequentially: per resource the body runs under `tryAbsorb`; an uncaught error
would stop the loop and propagate (the error branch of the outer match). -/
def initAll (env : Env) (instantiationService : Option Unit) :
    List SyncResource → ServiceState → Except String Unit × ServiceState × List Event
  | [], s => (Except.ok (), s, [])
  | r :: rest, s =>
    match tryAbsorb (initResourceBody env instantiationService r s) with
    | (Except.error e, s1, ev1) => (Except.error e, s1, ev1)
    | (Except.ok _, s1, ev1) =>
      let (res, s2, ev2) := initAll env instantiationService rest s1
      (res, s2, ev1 ++ ev2)

/-- The private dispatcher `initialize(syncResources, instantiationService?)`
(lines 120-143): create (or reuse) the client; if absent, return; otherwise
process every requested resource. -/
def initializeKinds (env : Env) (syncResources : List SyncResource)
    (instantiationService : Option Unit) (s : ServiceState) :
    Except String Unit × ServiceState × List Event :=
  let (client, s1) := createUserDataSyncStoreClient env s
  match client with
  | none => (Except.ok (), s1, [])
  | some _ => initAll env instantiationService syncResources s1

/-- `initializeRequiredResources` (lines 108-110). -/
def initializeRequiredResources (env : Env) (s : ServiceState) :
    Except String Unit × ServiceState × List Event :=
  initializeKinds env [SyncResource.settings, SyncResource.globalState] none s

/-- `initializeOtherResources` (lines 112-114). -/
def initializeOtherResources (env : Env) (s : ServiceState) :
    Except String Unit × ServiceState × List Event :=
  initializeKinds env [SyncResource.keybindings, SyncResource.snippets] none s

/-- `initializeExtensions(instantiationService)` (lines 116-118).  The TS type
requires the argument but at runtime nothing prevents passing `undefined`,
which is the situation several claims are about, hence `Option Unit`. -/
def initializeExtensions (env : Env) (instantiationService : Option Unit)
    (s : ServiceState) : Except String Unit × ServiceState × List Event :=
  initializeKinds env [SyncResource.extensions] instantiationService s

/-- Whether the remote fetch and local apply for a kind both succeed in a
given environment. -/
def kindSucceeds (env : Env) (r : SyncResource) : Bool :=
  match env.readResult r with
  | Except.error _ => false
  | Except.ok p =>
    match env.applyResult r p with
    | Except.error _ => false
    | Except.ok _ => true

/-! ## The interleaving machine

Each per-resource callback of the dispatcher runs synchronously from its
start through the membership check, the push onto `initialized`, the
initializer construction and the issuing of the remote read, and only then
suspends (`await`).  The machine therefore has one atomic `mark` step for
that synchronous section and a separate `fetch` step for the read of a task
that survived it; an entry-point call is a `call` step that resolves the
memoized client and spawns the per-resource tasks.  Steps are picked by an
arbitrary schedule (a `List SchedAction`), which over-approximates the
single-threaded event loop. -/

/-- Phase of a spawned per-resource task. -/
inductive TaskPhase where
  | started
  | fetching
  | done
deriving DecidableEq, Repr

/-- A per-resource task spawned by one dispatcher call. -/
structure ResourceTask where
  resource : SyncResource
  inst : Option Unit
  phase : TaskPhase
deriving DecidableEq, Repr

/-- The three public entry points. -/
inductive EntryPoint where
  | requiredResources
  | otherResources
  | extensions (instantiationService : Option Unit)
deriving DecidableEq, Repr

/-- The resource batch an entry point passes to the dispatcher
(lines 108-118). -/
def EntryPoint.resources : EntryPoint → List SyncResource
  | EntryPoint.requiredResources => [SyncResource.settings, SyncResource.globalState]
  | EntryPoint.otherResources => [SyncResource.keybindings, SyncResource.snippets]
  | EntryPoint.extensions _ => [SyncResource.extensions]

/-- The instantiation service an entry point passes to the dispatcher. -/
def EntryPoint.inst : EntryPoint → Option Unit
  | EntryPoint.extensions i => i
  | _ => none

/-- Machine configuration: service state, spawned tasks, and the trace of
remote reads performed so far. -/
structure Machine where
  state : ServiceState
  tasks : List ResourceTask
  events : List Event
deriving Repr

/-- The machine at process start. -/
def initMachine : Machine :=
  { state := initialState, tasks := [], events := [] }

/-- A schedulable step: an entry-point call (with the environment observed at
that moment), the synchronous section of task `i`, or the awaited fetch of
task `i`. -/
inductive SchedAction where
  | call (env : Env) (ep : EntryPoint)
  | mark (i : Nat)
  | fetch (i : Nat)

/-- Effect of an entry-point call: resolve the memoized client; if absent the
dispatcher returns at line 123 and spawns nothing, otherwise one task per
requested resource is spawned. -/
def applyCall (env : Env) (ep : EntryPoint) (m : Machine) : Machine :=
  let (client, s1) := createUserDataSyncStoreClient env m.state
  match client with
  | none => { m with state := s1 }
  | some _ =>
    { m with
      state := s1
      tasks := m.tasks ++ ep.resources.map
        (fun r => { resource := r, inst := ep.inst, phase := TaskPhase.started }) }

/-- Effect of the synchronous section of a started task (lines 128-133): if the
kind is already in `initialized` the task ends (skip branch); otherwise the
kind is pushed and the initializer is built — a throw there is caught by the
per-resource `catch`, ending the task; on success the task proceeds to its
awaited fetch. -/
def applyMark (i : Nat) (t : ResourceTask) (m : Machine) : Machine :=
  if m.state.initialized.contains t.resource then
    { m with tasks := m.tasks.set i { t with phase := TaskPhase.done } }
  else
    let s1 := { m.state with initialized := m.state.initialized ++ [t.resource] }
    match createSyncResourceInitializer t.resource t.inst with
    | Except.error _ =>
      { state := s1, tasks := m.tasks.set i { t with phase := TaskPhase.done },
        events := m.events }
    | Except.ok _ =>
      { state := s1, tasks := m.tasks.set i { t with phase := TaskPhase.fetching },
        events := m.events }

/-- Effect of the awaited part of a surviving task: the remote read is
recorded; whatever the read/apply outcome, the task ends (errors are caught
by the per-resource `catch`). -/
def applyFetch (i : Nat) (t : ResourceTask) (m : Machine) : Machine :=
  { m with tasks := m.tasks.set i { t with phase := TaskPhase.done },
           events := m.events ++ [Event.read t.resource] }

/-- One machine step; an action naming a task in the wrong phase (or no task)
is a no-op, so every action list is a valid schedule. -/
def stepA (m : Machine) (a : SchedAction) : Machine :=
  match a with
  | SchedAction.call env ep => applyCall env ep m
  | SchedAction.mark i =>
    match m.tasks[i]? with
    | none => m
    | some t =>
      match t.phase with
      | TaskPhase.started => applyMark i t m
      | _ => m
  | SchedAction.fetch i =>
    match m.tasks[i]? with
    | none => m
    | some t =>
      match t.phase with
      | TaskPhase.fetching => applyFetch i t m
      | _ => m

/-- Run a schedule from process start. -/
def run (acts : List SchedAction) : Machine :=
  acts.foldl stepA initMachine

/-- Number of remote reads recorded for kind `r`. -/
def readCount (evs : List Event) (r : SyncResource) : Nat :=
  evs.countP (fun e => decide (e = Event.read r))

/-- Number of tasks currently between their synchronous section and their
fetch, for kind `r`. -/
def fetchCount (ts : List ResourceTask) (r : SyncResource) : Nat :=
  ts.countP (fun t => decide (t.resource = r ∧ t.phase = TaskPhase.fetching))

/-- One if `r` is marked initialized, zero otherwise. -/
def initBit (s : ServiceState) (r : SyncResource) : Nat :=
  if r ∈ s.initialized then 1 else 0

/-! ## Derived definitions used in statements and proofs -/

/-- The state-and-trace part of the per-resource loop: since the `catch`
absorbs every per-resource error, the dispatcher's effect on the state and
on the event trace is this sequential fold of the per-resource bodies. -/
def initSeq (env : Env) (io : Option Unit) :
    List SyncResource → ServiceState → ServiceState × List Event
  | [], s => (s, [])
  | r :: rest, s =>
    let x := (initResourceBody env io r s).2
    let y := initSeq env io rest x.1
    (y.1, x.2 ++ y.2)

/-- Push a kind onto the `initialized` list unless already present. -/
def pushNew (acc : List SyncResource) (r : SyncResource) : List SyncResource :=
  if acc.contains r then acc else acc ++ [r]

/-- The `initialized` list after processing a batch. -/
def pushAll (rs : List SyncResource) (acc : List SyncResource) : List SyncResource :=
  rs.foldl pushNew acc

/-- The machine invariant: per kind, reads recorded plus tasks past their
synchronous section are bounded by membership in `initialized`; the
`initialized` list has no duplicates; and while the memo cell is unset or
holds an absent client, no task was ever spawned and no read ever recorded. -/
def MachInv (m : Machine) : Prop :=
  (∀ r, readCount m.events r + fetchCount m.tasks r ≤ initBit m.state r) ∧
  m.state.initialized.Nodup ∧
  ((m.state.userDataSyncStoreClientPromise = none ∨
    m.state.userDataSyncStoreClientPromise = some none) →
    m.tasks = [] ∧ m.events = [])

/-- A web environment in which every gating check passes and every remote
read and local apply succeeds. -/
def envAllPass : Env :=
  { isWeb := true
    enableSyncByDefault := true
    globalStorageIsNew := true
    workspaceStorageIsNew := true
    userDataSyncStore := some { url := "https://sync.example.test" }
    credentialsProvider := true
    authSession := Except.ok (some { accessToken := "tok", providerId := "github" })
    readResult := fun _ => Except.ok "payload"
    applyResult := fun _ _ => Except.ok () }

/-- Like `envAllPass` but the remote read for snippets fails. -/
def envSnippetsFail : Env :=
  { envAllPass with
    readResult := fun r =>
      if r = SyncResource.snippets then Except.error "network" else Except.ok "payload" }

/-- A desktop (non-web) environment: the first gate fails. -/
def envDesktop : Env :=
  { envAllPass with isWeb := false }

/-- Like `envAllPass` but acquiring the authentication session throws. -/
def envAuthFail : Env :=
  { envAllPass with authSession := Except.error "auth failed" }

/-! ## Machine invariant -/

/-- Counting under a pointwise list update, in addition form. -/
theorem countP_set_add {α : Type} (p : α → Bool) :
    ∀ (l : List α) (i : Nat) (a : α) (h : i < l.length),
    (l.set i a).countP p + (if p (l.get ⟨i, h⟩) then 1 else 0) =
      l.countP p + (if p a then 1 else 0) := by
  intro l
  induction l with
  | nil => intro i a h; simp at h
  | cons x xs ih =>
    intro i a h
    cases i with
    | zero => simp [List.countP_cons]; omega
    | succ n =>
      have hn : n < xs.length := by simpa using h
      have := ih n a hn
      simp only [List.set, List.countP_cons, List.get]
      omega

theorem machInv_init : MachInv initMachine := by
  refine ⟨?_, ?_, ?_⟩
  · intro r; simp [readCount, fetchCount, initBit, initMachine, initialState]
  · simp [initMachine, initialState]
  · intro _; exact ⟨rfl, rfl⟩

theorem fetchCount_append (l₁ l₂ : List ResourceTask) (r : SyncResource) :
    fetchCount (l₁ ++ l₂) r = fetchCount l₁ r + fetchCount l₂ r := by
  simp [fetchCount, List.countP_append]

theorem fetchCount_spawn (rs : List SyncResource) (io : Option Unit) (r : SyncResource) :
    fetchCount (rs.map
      (fun r' => { resource := r', inst := io, phase := TaskPhase.started })) r = 0 := by
  unfold fetchCount
  rw [List.countP_eq_zero]
  intro t ht
  obtain ⟨r', _, rfl⟩ := List.mem_map.mp ht
  simp

theorem readCount_append_one (evs : List Event) (e : Event) (r : SyncResource) :
    readCount (evs ++ [e]) r = readCount evs r + (if e = Event.read r then 1 else 0) := by
  simp only [readCount, List.countP_append, List.countP_cons, List.countP_nil]
  by_cases h : e = Event.read r <;> simp [h]

theorem initBit_push (s : ServiceState) (rt r : SyncResource) :
    initBit { s with initialized := s.initialized ++ [rt] } r =
      if r = rt then 1 else initBit s r := by
  unfold initBit
  by_cases h : r = rt
  · subst h; simp
  · simp [h]

theorem initBit_le_one (s : ServiceState) (r : SyncResource) : initBit s r ≤ 1 := by
  unfold initBit; split <;> omega

/-- Counting fetching tasks under a pointwise update, in addition form. -/
theorem fetchCount_set (ts : List ResourceTask) (i : Nat) (a : ResourceTask)
    (h : i < ts.length) (r : SyncResource) :
    fetchCount (ts.set i a) r
        + (if ts[i].resource = r ∧ ts[i].phase = TaskPhase.fetching then 1 else 0)
      = fetchCount ts r
        + (if a.resource = r ∧ a.phase = TaskPhase.fetching then 1 else 0) := by
  have hcs := countP_set_add
    (fun tk => decide (tk.resource = r ∧ tk.phase = TaskPhase.fetching)) ts i a h
  simp only [List.get_eq_getElem, decide_eq_true_eq] at hcs
  simpa [fetchCount] using hcs

theorem machInv_step (m : Machine) (a : SchedAction) (h : MachInv m) :
    MachInv (stepA m a) := by
  obtain ⟨h1, h2, h3⟩ := h
  cases a with
  | call env ep =>
    show MachInv (applyCall env ep m)
    unfold applyCall createUserDataSyncStoreClient
    cases hm : m.state.userDataSyncStoreClientPromise with
    | some r0 =>
      cases r0 with
      | none =>
        refine ⟨?_, h2, ?_⟩
        · intro r; exact h1 r
        · intro _; exact h3 (Or.inr (by rw [hm]))
      | some c =>
        refine ⟨?_, h2, ?_⟩
        · intro r
          rw [fetchCount_append, fetchCount_spawn]
          simpa using h1 r
        · intro hc; rw [hm] at hc; rcases hc with hc | hc <;> simp_all
    | none =>
      obtain ⟨htk, hev⟩ := h3 (Or.inl hm)
      cases hb : (createClientBody env).2 with
      | none =>
        refine ⟨?_, h2, ?_⟩
        · intro r
          rw [htk, hev]
          simp [readCount, fetchCount, initBit]
        · intro _; exact ⟨htk, hev⟩
      | some c =>
        refine ⟨?_, h2, ?_⟩
        · intro r
          rw [htk, hev, fetchCount_append, fetchCount_spawn]
          simp [readCount, fetchCount]
        · intro hc; rcases hc with hc | hc <;> simp_all
  | mark i =>
    cases ht : m.tasks[i]? with
    | none => simp only [stepA, ht]; exact ⟨h1, h2, h3⟩
    | some t =>
      obtain ⟨hlen, hget⟩ := List.getElem?_eq_some.mp ht
      cases hp : t.phase with
      | fetching => simp only [stepA, ht, hp]; exact ⟨h1, h2, h3⟩
      | done => simp only [stepA, ht, hp]; exact ⟨h1, h2, h3⟩
      | started =>
        simp only [stepA, ht, hp]
        unfold applyMark
        by_cases hc : m.state.initialized.contains t.resource
        · rw [if_pos hc]
          refine ⟨?_, h2, ?_⟩
          · intro r
            have hfs := fetchCount_set m.tasks i { t with phase := TaskPhase.done } hlen r
            rw [hget] at hfs
            simp only [hp] at hfs
            simp at hfs
            simp only
            rw [hfs]
            exact h1 r
          · intro hmm
            obtain ⟨htk, _⟩ := h3 hmm
            rw [htk] at ht; simp at ht
        · rw [if_neg hc]
          have hnm : t.resource ∉ m.state.initialized := by
            simpa using hc
          have hnodup : (m.state.initialized ++ [t.resource]).Nodup := by
            rw [List.nodup_append]
            refine ⟨h2, by simp, ?_⟩
            intro x hx hx'
            rw [List.mem_singleton] at hx'
            subst hx'
            exact hnm hx
          cases hci : createSyncResourceInitializer t.resource t.inst with
          | error e =>
            refine ⟨?_, hnodup, ?_⟩
            · intro r
              have hfs := fetchCount_set m.tasks i { t with phase := TaskPhase.done } hlen r
              rw [hget] at hfs
              simp only [hp] at hfs
              simp at hfs
              simp only
              rw [hfs, initBit_push]
              have := h1 r
              have := initBit_le_one m.state r
              split <;> omega
            · intro hmm
              obtain ⟨htk, _⟩ := h3 (by simpa using hmm)
              rw [htk] at ht; simp at ht
          | ok ini =>
            refine ⟨?_, hnodup, ?_⟩
            · intro r
              have hfs := fetchCount_set m.tasks i { t with phase := TaskPhase.fetching } hlen r
              rw [hget] at hfs
              simp only [hp] at hfs
              simp at hfs
              by_cases hr : t.resource = r
              · have hbit : initBit m.state r = 0 := by
                  unfold initBit
                  rw [if_neg (by rw [← hr]; exact hnm)]
                have hz := h1 r
                rw [hbit] at hz
                rw [if_pos hr] at hfs
                simp only
                rw [initBit_push, if_pos hr.symm]
                omega
              · rw [if_neg hr] at hfs
                simp only
                rw [initBit_push, if_neg (fun hx => hr hx.symm)]
                have := h1 r
                omega
            · intro hmm
              obtain ⟨htk, _⟩ := h3 (by simpa using hmm)
              rw [htk] at ht; simp at ht
  | fetch i =>
    cases ht : m.tasks[i]? with
    | none => simp only [stepA, ht]; exact ⟨h1, h2, h3⟩
    | some t =>
      obtain ⟨hlen, hget⟩ := List.getElem?_eq_some.mp ht
      cases hp : t.phase with
      | started => simp only [stepA, ht, hp]; exact ⟨h1, h2, h3⟩
      | done => simp only [stepA, ht, hp]; exact ⟨h1, h2, h3⟩
      | fetching =>
        simp only [stepA, ht, hp]
        unfold applyFetch
        refine ⟨?_, h2, ?_⟩
        · intro r
          have hfs := fetchCount_set m.tasks i { t with phase := TaskPhase.done } hlen r
          rw [hget] at hfs
          simp only [hp] at hfs
          simp at hfs
          simp only
          rw [readCount_append_one]
          by_cases hr : t.resource = r
          · rw [if_pos hr] at hfs
            rw [if_pos (by rw [hr])]
            have := h1 r
            omega
          · rw [if_neg hr] at hfs
            rw [if_neg (by intro hx; injection hx with hx'; exact hr hx')]
            have := h1 r
            omega
        · intro hmm
          obtain ⟨htk, _⟩ := h3 hmm
          rw [htk] at ht; simp at ht

theorem machInv_run (acts : List SchedAction) : MachInv (run acts) := by
  unfold run
  suffices h : ∀ m, MachInv m → MachInv (acts.foldl stepA m) from h initMachine machInv_init
  induction acts with
  | nil => intro m hm; simpa using hm
  | cons a as ih => intro m hm; exact ih (stepA m a) (machInv_step m a hm)

/-! ## Sequential dispatcher lemmas -/

theorem tryAbsorb_fst (x : Except String Unit × ServiceState × List Event) :
    (tryAbsorb x).1 = Except.ok () := by
  obtain ⟨res, s, ev⟩ := x
  cases res <;> rfl

theorem tryAbsorb_snd (x : Except String Unit × ServiceState × List Event) :
    (tryAbsorb x).2 = x.2 := by
  obtain ⟨res, s, ev⟩ := x
  cases res <;> rfl

/-- The dispatcher loop never propagates an error, and its state/trace effect
is `initSeq`: the per-resource `catch` absorbs every failure. -/
theorem initAll_eq (env : Env) (io : Option Unit) :
    ∀ (rs : List SyncResource) (s : ServiceState),
    initAll env io rs s = (Except.ok (), initSeq env io rs s) := by
  intro rs
  induction rs with
  | nil => intro s; rfl
  | cons r rest ih =>
    intro s
    unfold initAll initSeq
    rcases hx : initResourceBody env io r s with ⟨res, s1, ev1⟩
    cases res with
    | error e =>
      simp only [tryAbsorb, ih s1]
    | ok u =>
      simp only [tryAbsorb, ih s1]

theorem cusc_memo_some (env : Env) (s : ServiceState) (r : Option UserDataSyncStoreClient)
    (h : s.userDataSyncStoreClientPromise = some r) :
    createUserDataSyncStoreClient env s = (r, s) := by
  unfold createUserDataSyncStoreClient
  rw [h]

theorem cusc_memo_none (env : Env) (s : ServiceState)
    (h : s.userDataSyncStoreClientPromise = none) :
    createUserDataSyncStoreClient env s =
      ((createClientBody env).2,
        { s with userDataSyncStoreClientPromise := some (createClientBody env).2 }) := by
  unfold createUserDataSyncStoreClient
  rw [h]

/-- After any call to the connection builder the memo cell holds exactly the
returned result. -/
theorem cusc_sets_memo (env : Env) (s : ServiceState) :
    (createUserDataSyncStoreClient env s).2.userDataSyncStoreClientPromise =
      some (createUserDataSyncStoreClient env s).1 := by
  unfold createUserDataSyncStoreClient
  cases h : s.userDataSyncStoreClientPromise <;> simp_all

theorem cusc_keeps_initialized (env : Env) (s : ServiceState) :
    (createUserDataSyncStoreClient env s).2.initialized = s.initialized := by
  unfold createUserDataSyncStoreClient
  cases h : s.userDataSyncStoreClientPromise <;> simp_all

theorem initializeKinds_some (env : Env) (rs : List SyncResource) (io : Option Unit)
    (s : ServiceState) (c : UserDataSyncStoreClient) (s1 : ServiceState)
    (h : createUserDataSyncStoreClient env s = (some c, s1)) :
    initializeKinds env rs io s = (Except.ok (), initSeq env io rs s1) := by
  unfold initializeKinds
  rw [h]
  show initAll env io rs s1 = _
  rw [initAll_eq]

theorem initializeKinds_none (env : Env) (rs : List SyncResource) (io : Option Unit)
    (s : ServiceState) (s1 : ServiceState)
    (h : createUserDataSyncStoreClient env s = (none, s1)) :
    initializeKinds env rs io s = (Except.ok (), s1, []) := by
  unfold initializeKinds
  rw [h]

theorem initResourceBody_skip (env : Env) (io : Option Unit) (r : SyncResource)
    (s : ServiceState) (h : s.initialized.contains r = true) :
    initResourceBody env io r s = (Except.ok (), s, []) := by
  unfold initResourceBody
  rw [if_pos h]

theorem initResourceBody_state (env : Env) (io : Option Unit) (r : SyncResource)
    (s : ServiceState) (h : s.initialized.contains r = false) :
    (initResourceBody env io r s).2.1 = { s with initialized := s.initialized ++ [r] } := by
  unfold initResourceBody
  rw [if_neg (by simpa using h)]
  cases hci : createSyncResourceInitializer r io with
  | error e => rfl
  | ok ini =>
    cases hr : env.readResult r with
    | error e => rfl
    | ok p =>
      cases ha : env.applyResult r p with
      | error e => simp [hr, ha]
      | ok u => simp [hr, ha]

theorem initResourceBody_memo (env : Env) (io : Option Unit) (r : SyncResource)
    (s : ServiceState) :
    (initResourceBody env io r s).2.1.userDataSyncStoreClientPromise =
      s.userDataSyncStoreClientPromise := by
  by_cases h : s.initialized.contains r
  · rw [initResourceBody_skip env io r s h]
  · rw [initResourceBody_state env io r s (by simpa using h)]

theorem initResourceBody_events_mem (env : Env) (io : Option Unit) (r : SyncResource)
    (s : ServiceState) (e : Event) (he : e ∈ (initResourceBody env io r s).2.2) :
    e = Event.read r ∨ e = Event.applied r := by
  unfold initResourceBody at he
  split at he
  · simp at he
  · split at he
    · simp at he
    · split at he
      · simp at he; exact Or.inl he
      · split at he
        · simp at he; exact Or.inl he
        · simp at he
          rcases he with he | he
          · exact Or.inl he
          · exact Or.inr he

theorem initResourceBody_readCount (env : Env) (io : Option Unit) (r : SyncResource)
    (s : ServiceState) (h : s.initialized.contains r = false)
    (hio : ∃ ini, createSyncResourceInitializer r io = Except.ok ini) (r' : SyncResource) :
    readCount (initResourceBody env io r s).2.2 r' = if r = r' then 1 else 0 := by
  obtain ⟨ini, hci⟩ := hio
  unfold initResourceBody
  rw [if_neg (by simpa using h), hci]
  cases hr : env.readResult r with
  | error e => by_cases hrr : r = r' <;> simp [readCount, hrr]
  | ok p =>
    cases ha : env.applyResult r p with
    | error e =>
      by_cases hrr : r = r'
      · subst hrr; simp [ha, readCount]
      · simp [ha, readCount, hrr]
    | ok u =>
      by_cases hrr : r = r'
      · subst hrr; simp [ha, readCount]
      · simp [ha, readCount, hrr]

theorem initResourceBody_events_noInit (env : Env) (io : Option Unit) (r : SyncResource)
    (s : ServiceState) (h : s.initialized.contains r = false) (e : String)
    (hio : createSyncResourceInitializer r io = Except.error e) :
    (initResourceBody env io r s).2.2 = [] := by
  unfold initResourceBody
  rw [if_neg (by simpa using h), hio]

theorem initResourceBody_events_success (env : Env) (io : Option Unit) (r : SyncResource)
    (s : ServiceState) (h : s.initialized.contains r = false)
    (ini : ResourceInitializer) (hci : createSyncResourceInitializer r io = Except.ok ini)
    (p : String) (hr : env.readResult r = Except.ok p)
    (ha : env.applyResult r p = Except.ok ()) :
    (initResourceBody env io r s).2.2 = [Event.read r, Event.applied r] := by
  unfold initResourceBody
  rw [if_neg (by simpa using h), hci]
  simp [hr, ha]

theorem readCount_append (a b : List Event) (r : SyncResource) :
    readCount (a ++ b) r = readCount a r + readCount b r := by
  simp [readCount, List.countP_append]

theorem initSeq_memo (env : Env) (io : Option Unit) :
    ∀ (rs : List SyncResource) (s : ServiceState),
    (initSeq env io rs s).1.userDataSyncStoreClientPromise =
      s.userDataSyncStoreClientPromise := by
  intro rs
  induction rs with
  | nil => intro s; rfl
  | cons r rest ih =>
    intro s
    have h1 : (initSeq env io (r :: rest) s).1 =
        (initSeq env io rest (initResourceBody env io r s).2.1).1 := rfl
    rw [h1, ih, initResourceBody_memo]

theorem initSeq_initialized (env : Env) (io : Option Unit) :
    ∀ (rs : List SyncResource) (s : ServiceState),
    (initSeq env io rs s).1.initialized = pushAll rs s.initialized := by
  intro rs
  induction rs with
  | nil => intro s; rfl
  | cons r rest ih =>
    intro s
    have h1 : (initSeq env io (r :: rest) s).1 =
        (initSeq env io rest (initResourceBody env io r s).2.1).1 := rfl
    have h2 : pushAll (r :: rest) s.initialized = pushAll rest (pushNew s.initialized r) := rfl
    rw [h1, h2, ih]
    congr 1
    by_cases hc : s.initialized.contains r
    · rw [initResourceBody_skip env io r s hc]
      unfold pushNew
      rw [if_pos hc]
    · rw [initResourceBody_state env io r s (by simpa using hc)]
      unfold pushNew
      rw [if_neg hc]

theorem mem_pushNew_left (acc : List SyncResource) (r' r : SyncResource) (h : r ∈ acc) :
    r ∈ pushNew acc r' := by
  unfold pushNew
  split
  · exact h
  · exact List.mem_append_left _ h

theorem mem_pushNew_self (acc : List SyncResource) (r : SyncResource) : r ∈ pushNew acc r := by
  unfold pushNew
  split
  · next hc => exact List.elem_iff.mp hc
  · exact List.mem_append_right _ (List.mem_singleton.mpr rfl)

theorem mem_pushAll : ∀ (rs acc : List SyncResource) (r : SyncResource),
    (r ∈ acc ∨ r ∈ rs) → r ∈ pushAll rs acc := by
  intro rs
  induction rs with
  | nil =>
    intro acc r h
    rcases h with h | h
    · exact h
    · simp at h
  | cons r' rest ih =>
    intro acc r h
    have hstep : pushAll (r' :: rest) acc = pushAll rest (pushNew acc r') := rfl
    rw [hstep]
    rcases h with h | h
    · exact ih _ r (Or.inl (mem_pushNew_left acc r' r h))
    · rcases List.mem_cons.mp h with h | h
      · subst h; exact ih _ r (Or.inl (mem_pushNew_self acc r))
      · exact ih _ r (Or.inr h)

theorem initSeq_no_events (env : Env) (io : Option Unit) :
    ∀ (rs : List SyncResource) (s : ServiceState) (r : SyncResource),
    r ∈ s.initialized →
    Event.read r ∉ (initSeq env io rs s).2 ∧ Event.applied r ∉ (initSeq env io rs s).2 := by
  intro rs
  induction rs with
  | nil => intro s r _; simp [initSeq]
  | cons r' rest ih =>
    intro s r h
    have h2 : (initSeq env io (r' :: rest) s).2 =
        (initResourceBody env io r' s).2.2 ++
          (initSeq env io rest (initResourceBody env io r' s).2.1).2 := rfl
    rw [h2]
    have hmemstate : r ∈ (initResourceBody env io r' s).2.1.initialized := by
      by_cases hc : s.initialized.contains r'
      · rw [initResourceBody_skip env io r' s hc]; exact h
      · rw [initResourceBody_state env io r' s (by simpa using hc)]
        exact List.mem_append_left _ h
    have hrec := ih ((initResourceBody env io r' s).2.1) r hmemstate
    have hbody : Event.read r ∉ (initResourceBody env io r' s).2.2 ∧
        Event.applied r ∉ (initResourceBody env io r' s).2.2 := by
      by_cases hrr : r' = r
      · subst hrr
        rw [initResourceBody_skip env io r' s (List.elem_iff.mpr h)]
        simp
      · refine ⟨fun hmem => ?_, fun hmem => ?_⟩
        · rcases initResourceBody_events_mem env io r' s _ hmem with he | he
          · exact hrr (by injection he with h'; exact h'.symm)
          · exact absurd he (by simp)
        · rcases initResourceBody_events_mem env io r' s _ hmem with he | he
          · exact absurd he (by simp)
          · exact hrr (by injection he with h'; exact h'.symm)
    constructor
    · intro hx
      rcases List.mem_append.mp hx with hx | hx
      · exact hbody.1 hx
      · exact hrec.1 hx
    · intro hx
      rcases List.mem_append.mp hx with hx | hx
      · exact hbody.2 hx
      · exact hrec.2 hx

theorem initSeq_events_nil (env : Env) (io : Option Unit) :
    ∀ (rs : List SyncResource) (s : ServiceState),
    (∀ r ∈ rs, r ∈ s.initialized) → (initSeq env io rs s).2 = [] := by
  intro rs
  induction rs with
  | nil => intro s _; rfl
  | cons r' rest ih =>
    intro s h
    have h2 : (initSeq env io (r' :: rest) s).2 =
        (initResourceBody env io r' s).2.2 ++
          (initSeq env io rest (initResourceBody env io r' s).2.1).2 := rfl
    rw [h2, initResourceBody_skip env io r' s
      (List.elem_iff.mpr (h r' (List.mem_cons_self r' rest)))]
    have := ih s (fun r hr => h r (List.mem_cons_of_mem _ hr))
    simpa using this

theorem initSeq_readCount (env : Env) (io : Option Unit) :
    ∀ (rs : List SyncResource) (s : ServiceState) (r : SyncResource), rs.Nodup →
    (∀ r' ∈ rs, ∃ ini, createSyncResourceInitializer r' io = Except.ok ini) →
    readCount (initSeq env io rs s).2 r =
      if r ∈ rs ∧ r ∉ s.initialized then 1 else 0 := by
  intro rs
  induction rs with
  | nil => intro s r _ _; simp [initSeq, readCount]
  | cons r' rest ih =>
    intro s r hnd hio
    have h2 : (initSeq env io (r' :: rest) s).2 =
        (initResourceBody env io r' s).2.2 ++
          (initSeq env io rest (initResourceBody env io r' s).2.1).2 := rfl
    rw [h2, readCount_append]
    have hnd' : rest.Nodup := (List.nodup_cons.mp hnd).2
    have hr'rest : r' ∉ rest := (List.nodup_cons.mp hnd).1
    have hio' : ∀ x ∈ rest, ∃ ini, createSyncResourceInitializer x io = Except.ok ini :=
      fun x hx => hio x (List.mem_cons_of_mem _ hx)
    by_cases hc : s.initialized.contains r'
    · rw [initResourceBody_skip env io r' s hc]
      have hrec := ih s r hnd' hio'
      have hcmem : r' ∈ s.initialized := List.elem_iff.mp hc
      show readCount [] r + readCount (initSeq env io rest s).2 r = _
      rw [hrec]
      have h0 : readCount ([] : List Event) r = 0 := rfl
      rw [h0, Nat.zero_add]
      by_cases hrr : r = r'
      · subst hrr; simp [hcmem]
      · simp [List.mem_cons, hrr]
    · have hcf : s.initialized.contains r' = false := by simpa using hc
      rw [initResourceBody_readCount env io r' s hcf
        (hio r' (List.mem_cons_self r' rest)) r]
      have hstate : (initResourceBody env io r' s).2.1 =
          { s with initialized := s.initialized ++ [r'] } :=
        initResourceBody_state env io r' s hcf
      rw [hstate, ih _ r hnd' hio']
      have hnmem : r' ∉ s.initialized := by simpa using hc
      by_cases hrr : r' = r
      · subst hrr
        simp [hr'rest, hnmem]
      · have hrr' : ¬ r = r' := fun hx => hrr hx.symm
        simp [List.mem_cons, List.mem_append, List.mem_singleton, hrr, hrr']

theorem initSeq_success_mem (env : Env) (io : Option Unit) :
    ∀ (rs : List SyncResource) (s : ServiceState) (J : SyncResource) (p : String),
    J ∈ rs → rs.Nodup → J ∉ s.initialized →
    (∃ ini, createSyncResourceInitializer J io = Except.ok ini) →
    env.readResult J = Except.ok p → env.applyResult J p = Except.ok () →
    Event.read J ∈ (initSeq env io rs s).2 ∧
      Event.applied J ∈ (initSeq env io rs s).2 := by
  intro rs
  induction rs with
  | nil => intro s J p h; simp at h
  | cons r' rest ih =>
    intro s J p hmem hnd hni hio hread happ
    have h2 : (initSeq env io (r' :: rest) s).2 =
        (initResourceBody env io r' s).2.2 ++
          (initSeq env io rest (initResourceBody env io r' s).2.1).2 := rfl
    rw [h2]
    by_cases hrr : r' = J
    · subst hrr
      obtain ⟨ini, hci⟩ := hio
      have hcf : s.initialized.contains r' = false := by simpa using hni
      rw [initResourceBody_events_success env io r' s hcf ini hci p hread happ]
      constructor
      · exact List.mem_append_left _ (by simp)
      · exact List.mem_append_left _ (by simp)
    · have hJrest : J ∈ rest := by
        rcases List.mem_cons.mp hmem with h | h
        · exact absurd h.symm hrr
        · exact h
      have hni' : J ∉ (initResourceBody env io r' s).2.1.initialized := by
        by_cases hc : s.initialized.contains r'
        · rw [initResourceBody_skip env io r' s hc]; exact hni
        · rw [initResourceBody_state env io r' s (by simpa using hc)]
          intro hx
          rcases List.mem_append.mp hx with hx | hx
          · exact hni hx
          · exact hrr (List.mem_singleton.mp hx).symm
      have hrec := ih _ J p hJrest (List.nodup_cons.mp hnd).2 hni' hio hread happ
      exact ⟨List.mem_append_right _ hrec.1, List.mem_append_right _ hrec.2⟩

theorem initializeKinds_fst (env : Env) (rs : List SyncResource) (io : Option Unit)
    (s : ServiceState) : (initializeKinds env rs io s).1 = Except.ok () := by
  unfold initializeKinds
  rcases hpair : createUserDataSyncStoreClient env s with ⟨client, s1⟩
  cases client with
  | none => rfl
  | some c =>
    show (initAll env io rs s1).1 = Except.ok ()
    rw [initAll_eq]

theorem initializeKinds_no_events_of_mem (env : Env) (rs : List SyncResource)
    (io : Option Unit) (s : ServiceState) (r : SyncResource) (h : r ∈ s.initialized) :
    Event.read r ∉ (initializeKinds env rs io s).2.2 ∧
      Event.applied r ∉ (initializeKinds env rs io s).2.2 := by
  unfold initializeKinds
  rcases hpair : createUserDataSyncStoreClient env s with ⟨client, s1⟩
  have hs1 : s1.initialized = s.initialized := by
    have := cusc_keeps_initialized env s
    rw [hpair] at this
    exact this
  cases client with
  | none => simp
  | some c =>
    show Event.read r ∉ (initAll env io rs s1).2.2 ∧
      Event.applied r ∉ (initAll env io rs s1).2.2
    rw [initAll_eq]
    exact initSeq_no_events env io rs s1 r (by rw [hs1]; exact h)

theorem createClientBody_pass (env : Env) (st : UserDataSyncStore)
    (sess : AuthenticationSession)
    (hweb : env.isWeb = true) (hsync : env.enableSyncByDefault = true)
    (hglob : env.globalStorageIsNew = true) (hws : env.workspaceStorageIsNew = true)
    (hstore : env.userDataSyncStore = some st) (hcred : env.credentialsProvider = true)
    (hauth : env.authSession = Except.ok (some sess)) :
    createClientBody env = (fullGateChain,
      some { url := st.url, authToken := some (sess.accessToken, sess.providerId) }) := by
  unfold createClientBody
  rw [hweb, hsync, hglob, hws, hstore, hcred, hauth]
  rfl

/-! ## Claim theorems -/

/-- C1: for every schedule of entry-point calls and task steps — any
interleaving, including concurrent calls requesting overlapping kinds — each
resource kind is read from the remote store at most once in the process:
the membership check and the push onto `initialized` happen in one
synchronous section before the read is awaited. -/
theorem c1_reads_at_most_once (acts : List SchedAction) (r : SyncResource) :
    readCount (run acts).events r ≤ 1 := by
  have h := (machInv_run acts).1 r
  have hb := initBit_le_one (run acts).state r
  omega

/-- C10: under every schedule, the orchestrator's `initialized` collection
never contains duplicate resource kinds: a kind is pushed only when the
membership check fails, in the same synchronous section. -/
theorem c10_initialized_nodup (acts : List SchedAction) :
    (run acts).state.initialized.Nodup :=
  (machInv_run acts).2.1

/-- C4: the connection construction is memoized as a single stored result:
after a first call, any later call — whatever its environment — receives the
identical stored pair without re-running the gating/auth/build sequence,
even when the stored result is absent; and once the stored result is absent,
no remote read happens for any kind for the rest of the process, under any
schedule. -/
theorem c4_memoized_connection :
    (∀ (env env' : Env) (s : ServiceState),
      createUserDataSyncStoreClient env' (createUserDataSyncStoreClient env s).2 =
        createUserDataSyncStoreClient env s) ∧
    (∀ acts : List SchedAction,
      (run acts).state.userDataSyncStoreClientPromise = some none →
      (run acts).events = []) := by
  constructor
  · intro env env' s
    rw [cusc_memo_some env' _ _ (cusc_sets_memo env s)]
  · intro acts h
    exact ((machInv_run acts).2.2 (Or.inr h)).2

/-- Witness for C4: one desktop call memoizes an absent client, and the trace
stays empty. -/
theorem c4_witness :
    (run [SchedAction.call envDesktop EntryPoint.requiredResources]).state.userDataSyncStoreClientPromise
        = some none ∧
    (run [SchedAction.call envDesktop EntryPoint.requiredResources]).events = [] :=
  ⟨rfl, c4_memoized_connection.2 [SchedAction.call envDesktop EntryPoint.requiredResources] rfl⟩

/-- C3: the dispatcher never raises to its caller: for every environment,
batch, capability and state the result is `ok` — connection-construction,
fetch and apply failures are all absorbed inside the orchestrator. -/
theorem c3_dispatcher_never_raises (env : Env) (rs : List SyncResource)
    (io : Option Unit) (s : ServiceState) :
    (initializeKinds env rs io s).1 = Except.ok () :=
  initializeKinds_fst env rs io s

/-- Counterexample to C2: with every gate passing, calling
`initializeExtensions` without an instantiation service returns `ok` to the
caller — no missing-capability error is raised to it. -/
theorem c2_counterexample :
    (initializeExtensions envAllPass none initialState).1 = Except.ok () := rfl

/-- C2 as amended: calling `initializeExtensions` without an instantiation
service performs no remote read for the Extensions kind; the explicit
missing-capability error is thrown during initializer construction but is
caught by the per-resource handler and logged, so the call completes without
raising to the caller. -/
theorem c2_amended (env : Env) (s : ServiceState) :
    (initializeExtensions env none s).1 = Except.ok () ∧
    Event.read SyncResource.extensions ∉ (initializeExtensions env none s).2.2 ∧
    createSyncResourceInitializer SyncResource.extensions none =
      Except.error "Instantiation Service is required to initialize extension" := by
  refine ⟨initializeKinds_fst env _ none s, ?_, rfl⟩
  unfold initializeExtensions initializeKinds
  rcases hpair : createUserDataSyncStoreClient env s with ⟨client, s1⟩
  cases client with
  | none => simp
  | some c =>
    show Event.read SyncResource.extensions ∉
      (initAll env none [SyncResource.extensions] s1).2.2
    rw [initAll_eq]
    have h2 : (initSeq env none [SyncResource.extensions] s1).2 =
        (initResourceBody env none SyncResource.extensions s1).2.2 ++
          (initSeq env none []
            (initResourceBody env none SyncResource.extensions s1).2.1).2 := rfl
    rw [h2]
    by_cases hc : s1.initialized.contains SyncResource.extensions
    · rw [initResourceBody_skip env none _ s1 hc]
      simp [initSeq]
    · rw [initResourceBody_events_noInit env none SyncResource.extensions s1
        (by simpa using hc)
        "Instantiation Service is required to initialize extension" rfl]
      simp [initSeq]

/-- C9: with the connection available, calling `initializeExtensions` without
an instantiation service marks Extensions initialized before the construction
error is thrown, so a later call with a valid instantiation service performs
no remote read and no apply for Extensions. -/
theorem c9_extensions_marked_before_throw (env : Env) (s : ServiceState)
    (hclient : (createUserDataSyncStoreClient env s).1.isSome = true) :
    SyncResource.extensions ∈ (initializeExtensions env none s).2.1.initialized ∧
    ∀ env' : Env,
      (initializeExtensions env' (some ())
        (initializeExtensions env none s).2.1).2.2 = [] := by
  rcases hpair : createUserDataSyncStoreClient env s with ⟨client, s1⟩
  cases client with
  | none => rw [hpair] at hclient; simp at hclient
  | some c =>
    have hout : initializeExtensions env none s =
        (Except.ok (), initSeq env none [SyncResource.extensions] s1) := by
      unfold initializeExtensions
      exact initializeKinds_some env _ none s c s1 hpair
    rw [hout]
    have hinit : (initSeq env none [SyncResource.extensions] s1).1.initialized =
        pushAll [SyncResource.extensions] s1.initialized :=
      initSeq_initialized env none _ s1
    have hmem : SyncResource.extensions ∈
        (initSeq env none [SyncResource.extensions] s1).1.initialized := by
      rw [hinit]
      exact mem_pushAll _ _ _ (Or.inr (List.mem_singleton.mpr rfl))
    refine ⟨hmem, ?_⟩
    intro env'
    have hmemo : (initSeq env none [SyncResource.extensions] s1).1.userDataSyncStoreClientPromise
        = some (some c) := by
      rw [initSeq_memo]
      have := cusc_sets_memo env s
      rw [hpair] at this
      exact this
    have hp2 : createUserDataSyncStoreClient env'
        (initSeq env none [SyncResource.extensions] s1).1 =
        (some c, (initSeq env none [SyncResource.extensions] s1).1) :=
      cusc_memo_some env' _ _ hmemo
    unfold initializeExtensions
    rw [initializeKinds_some env' _ (some ()) _ c _ hp2]
    show (initSeq env' (some ()) [SyncResource.extensions]
      (initSeq env none [SyncResource.extensions] s1).1).2 = []
    exact initSeq_events_nil env' (some ()) _ _
      (fun r hr => by rw [List.mem_singleton.mp hr]; exact hmem)

/-- Witness for C9 at a concrete all-gates-pass environment. -/
theorem c9_witness :
    (createUserDataSyncStoreClient envAllPass initialState).1.isSome = true ∧
    SyncResource.extensions ∈
      (initializeExtensions envAllPass none initialState).2.1.initialized :=
  ⟨rfl, (c9_extensions_marked_before_throw envAllPass initialState rfl).1⟩

/-- C5: within one dispatcher call over a batch, the failure of one kind `K`
(fetch or apply) does not prevent another kind `J` of the same batch from
being fetched and applied. -/
theorem c5_failure_isolated (env : Env) (rs : List SyncResource) (io : Option Unit)
    (s : ServiceState) (K J : SyncResource) (p : String)
    (hclient : (createUserDataSyncStoreClient env s).1.isSome = true)
    (hnd : rs.Nodup) (hK : K ∈ rs) (hJ : J ∈ rs) (hKJ : K ≠ J)
    (hKfail : kindSucceeds env K = false)
    (hJni : J ∉ s.initialized)
    (hJinit : ∃ ini, createSyncResourceInitializer J io = Except.ok ini)
    (hJread : env.readResult J = Except.ok p)
    (hJapply : env.applyResult J p = Except.ok ()) :
    Event.read J ∈ (initializeKinds env rs io s).2.2 ∧
      Event.applied J ∈ (initializeKinds env rs io s).2.2 := by
  rcases hpair : createUserDataSyncStoreClient env s with ⟨client, s1⟩
  cases client with
  | none => rw [hpair] at hclient; simp at hclient
  | some c =>
    rw [initializeKinds_some env rs io s c s1 hpair]
    have hs1 : s1.initialized = s.initialized := by
      have := cusc_keeps_initialized env s
      rw [hpair] at this
      exact this
    exact initSeq_success_mem env io rs s1 J p hJ hnd (by rw [hs1]; exact hJni)
      hJinit hJread hJapply

/-- Witness for C5: snippets' read fails, keybindings is still fetched and
applied in the same batch. -/
theorem c5_witness :
    Event.read SyncResource.keybindings ∈
      (initializeKinds envSnippetsFail
        [SyncResource.keybindings, SyncResource.snippets] none initialState).2.2 ∧
    Event.applied SyncResource.keybindings ∈
      (initializeKinds envSnippetsFail
        [SyncResource.keybindings, SyncResource.snippets] none initialState).2.2 :=
  c5_failure_isolated envSnippetsFail
    [SyncResource.keybindings, SyncResource.snippets] none initialState
    SyncResource.snippets SyncResource.keybindings "payload"
    rfl (by decide) (by decide) (by decide) (by decide) rfl (by decide)
    ⟨ResourceInitializer.keybindingsInitializer, rfl⟩ rfl rfl

/-- C6: when the fetch or apply for a kind fails, the kind stays in the
`initialized` set (the error branch does not remove it), so no later call
performs a new remote read or apply for it. -/
theorem c6_failed_kind_stays_initialized (env : Env) (rs : List SyncResource)
    (io : Option Unit) (r : SyncResource) (s : ServiceState)
    (hclient : (createUserDataSyncStoreClient env s).1.isSome = true)
    (hmem : r ∈ rs) (hfail : kindSucceeds env r = false) :
    r ∈ (initializeKinds env rs io s).2.1.initialized ∧
    ∀ (env' : Env) (rs' : List SyncResource) (io' : Option Unit),
      Event.read r ∉
        (initializeKinds env' rs' io' (initializeKinds env rs io s).2.1).2.2 ∧
      Event.applied r ∉
        (initializeKinds env' rs' io' (initializeKinds env rs io s).2.1).2.2 := by
  rcases hpair : createUserDataSyncStoreClient env s with ⟨client, s1⟩
  cases client with
  | none => rw [hpair] at hclient; simp at hclient
  | some c =>
    rw [initializeKinds_some env rs io s c s1 hpair]
    have hmem' : r ∈ (initSeq env io rs s1).1.initialized := by
      rw [initSeq_initialized]
      exact mem_pushAll rs s1.initialized r (Or.inr hmem)
    exact ⟨hmem', fun env' rs' io' =>
      initializeKinds_no_events_of_mem env' rs' io' _ r hmem'⟩

/-- Witness for C6: the snippets read fails, snippets is left initialized and
a repeat call emits no snippets events. -/
theorem c6_witness :
    SyncResource.snippets ∈
      (initializeKinds envSnippetsFail
        [SyncResource.keybindings, SyncResource.snippets] none
        initialState).2.1.initialized ∧
    Event.read SyncResource.snippets ∉
      (initializeKinds envSnippetsFail [SyncResource.snippets] none
        (initializeKinds envSnippetsFail
          [SyncResource.keybindings, SyncResource.snippets] none
          initialState).2.1).2.2 := by
  have h := c6_failed_kind_stays_initialized envSnippetsFail
    [SyncResource.keybindings, SyncResource.snippets] none SyncResource.snippets
    initialState rfl (by decide) rfl
  exact ⟨h.1, (h.2 envSnippetsFail [SyncResource.snippets] none).1⟩

set_option maxHeartbeats 2000000 in
/-- C7: the connection builder's gating checks run as a short-circuit chain
in source order: the executed checks are always a prefix of the full chain;
a client is produced exactly when every gate passes and an authentication
session is obtained — so the first failing check yields an absent client;
each check after the first executes exactly when all earlier gates pass —
so nothing after the first failing check runs (in particular the fallible
authentication attempt runs only after the six earlier gates pass); and an
authentication error is caught, yielding an absent client rather than
propagating. -/
theorem c7_gate_chain (env : Env) :
    (∃ t, (createClientBody env).1 ++ t = fullGateChain) ∧
    ((createClientBody env).2.isSome = true ↔
      (env.isWeb = true ∧ env.enableSyncByDefault = true ∧
       env.globalStorageIsNew = true ∧ env.workspaceStorageIsNew = true ∧
       env.userDataSyncStore.isSome = true ∧ env.credentialsProvider = true ∧
       ∃ sess, env.authSession = Except.ok (some sess))) ∧
    (GateCheck.web ∈ (createClientBody env).1) ∧
    (GateCheck.syncByDefault ∈ (createClientBody env).1 ↔ env.isWeb = true) ∧
    (GateCheck.globalStorage ∈ (createClientBody env).1 ↔
      (env.isWeb = true ∧ env.enableSyncByDefault = true)) ∧
    (GateCheck.workspaceStorage ∈ (createClientBody env).1 ↔
      (env.isWeb = true ∧ env.enableSyncByDefault = true ∧
       env.globalStorageIsNew = true)) ∧
    (GateCheck.store ∈ (createClientBody env).1 ↔
      (env.isWeb = true ∧ env.enableSyncByDefault = true ∧
       env.globalStorageIsNew = true ∧ env.workspaceStorageIsNew = true)) ∧
    (GateCheck.credentials ∈ (createClientBody env).1 ↔
      (env.isWeb = true ∧ env.enableSyncByDefault = true ∧
       env.globalStorageIsNew = true ∧ env.workspaceStorageIsNew = true ∧
       env.userDataSyncStore.isSome = true)) ∧
    (GateCheck.auth ∈ (createClientBody env).1 ↔
      (env.isWeb = true ∧ env.enableSyncByDefault = true ∧
       env.globalStorageIsNew = true ∧ env.workspaceStorageIsNew = true ∧
       env.userDataSyncStore.isSome = true ∧ env.credentialsProvider = true)) ∧
    (∀ e, env.authSession = Except.error e → (createClientBody env).2 = none) := by
  rcases env with ⟨w, sy, g, ws, st, cr, au, rr, ar⟩
  cases w <;> cases sy <;> cases g <;> cases ws <;>
    rcases st with _ | st <;> cases cr <;>
    rcases au with e0 | _ | sess <;>
    refine ⟨?_, by simp [createClientBody], by simp [createClientBody],
      by simp [createClientBody], by simp [createClientBody],
      by simp [createClientBody], by simp [createClientBody],
      by simp [createClientBody], by simp [createClientBody],
      by intro e he; simp_all [createClientBody]⟩ <;>
    first
      | exact ⟨[], rfl⟩
      | exact ⟨[GateCheck.auth], rfl⟩
      | exact ⟨[GateCheck.credentials, GateCheck.auth], rfl⟩
      | exact ⟨[GateCheck.store, GateCheck.credentials, GateCheck.auth], rfl⟩
      | exact ⟨[GateCheck.workspaceStorage, GateCheck.store, GateCheck.credentials,
               GateCheck.auth], rfl⟩
      | exact ⟨[GateCheck.globalStorage, GateCheck.workspaceStorage, GateCheck.store,
               GateCheck.credentials, GateCheck.auth], rfl⟩
      | exact ⟨[GateCheck.syncByDefault, GateCheck.globalStorage,
               GateCheck.workspaceStorage, GateCheck.store, GateCheck.credentials,
               GateCheck.auth], rfl⟩

/-- Witness for C7: on a desktop (non-web) session the first gate fails and
the client is absent; with the six earlier gates passing and the auth session
throwing, the caught error also yields an absent client. -/
theorem c7_witness :
    (createClientBody envDesktop).2 = none ∧ (createClientBody envAuthFail).2 = none := by
  constructor
  · have h := (c7_gate_chain envDesktop).2.1
    cases hr : (createClientBody envDesktop).2 with
    | none => rfl
    | some cl =>
      have : envDesktop.isWeb = true := (h.mp (by rw [hr]; rfl)).1
      simp [envDesktop, envAllPass] at this
  · exact (c7_gate_chain envAuthFail).2.2.2.2.2.2.2.2.2 "auth failed" rfl

/-- C8: with all gates passing, `initializeRequiredResources` then
`initializeOtherResources` from a fresh state perform exactly one remote read
for each of settings, global state, keybindings and snippets — none for
extensions — and a repeated `initializeRequiredResources` call performs zero
additional reads. -/
theorem c8_scenario_exact_reads (env : Env) (st : UserDataSyncStore)
    (sess : AuthenticationSession)
    (hweb : env.isWeb = true) (hsync : env.enableSyncByDefault = true)
    (hglob : env.globalStorageIsNew = true) (hws : env.workspaceStorageIsNew = true)
    (hstore : env.userDataSyncStore = some st) (hcred : env.credentialsProvider = true)
    (hauth : env.authSession = Except.ok (some sess)) :
    (∀ r ∈ [SyncResource.settings, SyncResource.globalState,
            SyncResource.keybindings, SyncResource.snippets],
      readCount ((initializeRequiredResources env initialState).2.2 ++
        (initializeOtherResources env
          (initializeRequiredResources env initialState).2.1).2.2) r = 1) ∧
    readCount ((initializeRequiredResources env initialState).2.2 ++
      (initializeOtherResources env
        (initializeRequiredResources env initialState).2.1).2.2)
      SyncResource.extensions = 0 ∧
    (initializeRequiredResources env
      (initializeOtherResources env
        (initializeRequiredResources env initialState).2.1).2.1).2.2 = [] := by
  have hbody := createClientBody_pass env st sess hweb hsync hglob hws hstore hcred hauth
  set c : UserDataSyncStoreClient :=
    { url := st.url, authToken := some (sess.accessToken, sess.providerId) } with hcdef
  set s1 : ServiceState :=
    { userDataSyncStoreClientPromise := some (some c), initialized := [] } with hs1
  have hp1 : createUserDataSyncStoreClient env initialState = (some c, s1) := by
    rw [cusc_memo_none env initialState rfl, hbody, hs1]
    rfl
  have hout1 : initializeRequiredResources env initialState =
      (Except.ok (), initSeq env none [SyncResource.settings, SyncResource.globalState] s1) := by
    unfold initializeRequiredResources
    exact initializeKinds_some env _ none initialState c s1 hp1
  have hstate1init : (initSeq env none
      [SyncResource.settings, SyncResource.globalState] s1).1.initialized =
      [SyncResource.settings, SyncResource.globalState] := by
    rw [initSeq_initialized, hs1]
    rfl
  have hstate1memo : (initSeq env none
      [SyncResource.settings, SyncResource.globalState] s1).1.userDataSyncStoreClientPromise =
      some (some c) := by
    rw [initSeq_memo, hs1]
  have hp2 : createUserDataSyncStoreClient env
      (initSeq env none [SyncResource.settings, SyncResource.globalState] s1).1 =
      (some c, (initSeq env none [SyncResource.settings, SyncResource.globalState] s1).1) :=
    cusc_memo_some env _ _ hstate1memo
  have hout2 : initializeOtherResources env
      (initSeq env none [SyncResource.settings, SyncResource.globalState] s1).1 =
      (Except.ok (), initSeq env none [SyncResource.keybindings, SyncResource.snippets]
        (initSeq env none [SyncResource.settings, SyncResource.globalState] s1).1) := by
    unfold initializeOtherResources
    exact initializeKinds_some env _ none _ c _ hp2
  have hio1 : ∀ r' ∈ [SyncResource.settings, SyncResource.globalState],
      ∃ ini, createSyncResourceInitializer r' none = Except.ok ini := by
    intro r' hr'
    rcases List.mem_cons.mp hr' with h | h
    · subst h; exact ⟨ResourceInitializer.settingsInitializer, rfl⟩
    · rw [List.mem_singleton.mp h]
      exact ⟨ResourceInitializer.globalStateInitializer, rfl⟩
  have hio2 : ∀ r' ∈ [SyncResource.keybindings, SyncResource.snippets],
      ∃ ini, createSyncResourceInitializer r' none = Except.ok ini := by
    intro r' hr'
    rcases List.mem_cons.mp hr' with h | h
    · subst h; exact ⟨ResourceInitializer.keybindingsInitializer, rfl⟩
    · rw [List.mem_singleton.mp h]
      exact ⟨ResourceInitializer.snippetsInitializer, rfl⟩
  have hc1 : ∀ r, readCount (initSeq env none
      [SyncResource.settings, SyncResource.globalState] s1).2 r =
      if r ∈ [SyncResource.settings, SyncResource.globalState] ∧
          r ∉ ([] : List SyncResource) then 1 else 0 := by
    intro r
    rw [initSeq_readCount env none _ s1 r (by decide) hio1, hs1]
  have hc2 : ∀ r, readCount (initSeq env none
      [SyncResource.keybindings, SyncResource.snippets]
      (initSeq env none [SyncResource.settings, SyncResource.globalState] s1).1).2 r =
      if r ∈ [SyncResource.keybindings, SyncResource.snippets] ∧
          r ∉ [SyncResource.settings, SyncResource.globalState] then 1 else 0 := by
    intro r
    rw [initSeq_readCount env none _ _ r (by decide) hio2]
    simp only [hstate1init]
  have hstate2init : (initSeq env none [SyncResource.keybindings, SyncResource.snippets]
      (initSeq env none [SyncResource.settings, SyncResource.globalState] s1).1).1.initialized =
      [SyncResource.settings, SyncResource.globalState,
       SyncResource.keybindings, SyncResource.snippets] := by
    rw [initSeq_initialized, hstate1init]
    rfl
  have hstate2memo : (initSeq env none [SyncResource.keybindings, SyncResource.snippets]
      (initSeq env none [SyncResource.settings, SyncResource.globalState]
        s1).1).1.userDataSyncStoreClientPromise = some (some c) := by
    rw [initSeq_memo, hstate1memo]
  have hp3 : createUserDataSyncStoreClient env
      (initSeq env none [SyncResource.keybindings, SyncResource.snippets]
        (initSeq env none [SyncResource.settings, SyncResource.globalState] s1).1).1 =
      (some c, (initSeq env none [SyncResource.keybindings, SyncResource.snippets]
        (initSeq env none [SyncResource.settings, SyncResource.globalState] s1).1).1) :=
    cusc_memo_some env _ _ hstate2memo
  have hout3 : initializeRequiredResources env
      (initSeq env none [SyncResource.keybindings, SyncResource.snippets]
        (initSeq env none [SyncResource.settings, SyncResource.globalState] s1).1).1 =
      (Except.ok (), initSeq env none [SyncResource.settings, SyncResource.globalState]
        (initSeq env none [SyncResource.keybindings, SyncResource.snippets]
          (initSeq env none [SyncResource.settings, SyncResource.globalState] s1).1).1) := by
    unfold initializeRequiredResources
    exact initializeKinds_some env _ none _ c _ hp3
  rw [hout1]
  simp only [Prod.snd]
  rw [hout2]
  simp only [Prod.snd]
  rw [hout3]
  refine ⟨?_, ?_, ?_⟩
  · intro r hr
    rw [readCount_append, hc1 r, hc2 r]
    fin_cases hr <;> decide
  · rw [readCount_append, hc1 _, hc2 _]
    decide
  · show (initSeq env none [SyncResource.settings, SyncResource.globalState]
      (initSeq env none [SyncResource.keybindings, SyncResource.snippets]
        (initSeq env none [SyncResource.settings, SyncResource.globalState] s1).1).1).2 = []
    refine initSeq_events_nil env none _ _ ?_
    intro r hr
    rw [hstate2init]
    fin_cases hr <;> decide

/-- Witness for C8 at the concrete all-gates-pass environment. -/
theorem c8_witness :
    readCount ((initializeRequiredResources envAllPass initialState).2.2 ++
      (initializeOtherResources envAllPass
        (initializeRequiredResources envAllPass initialState).2.1).2.2)
      SyncResource.settings = 1 ∧
    (initializeRequiredResources envAllPass
      (initializeOtherResources envAllPass
        (initializeRequiredResources envAllPass initialState).2.1).2.1).2.2 = [] := by
  have h := c8_scenario_exact_reads envAllPass { url := "https://sync.example.test" }
    { accessToken := "tok", providerId := "github" } rfl rfl rfl rfl rfl rfl rfl
  exact ⟨h.1 SyncResource.settings (by decide), h.2.2⟩
